import Mathlib

/-!
Shallow embedding of `dags/challenge/news.py` (a NewsAPI → CSV → S3 batch
ETL job) and proofs about its grouping, pagination, grading, CSV and
job-function logic.

External collaborators (the NewsAPI client library, the `readability`
library, `boto3`) are modelled as explicit function parameters; the code
under `dags/challenge/news.py` is embedded faithfully on top of them.
Python `None` is modelled with `Option`, exceptions with explicit result
constructors, and the unbounded `while True` pagination loop with a fuel
parameter (a distinguished `diverged` outcome marks fuel exhaustion, which
never occurs in the terminating scenarios the theorems describe).
-/

namespace News

/-- The `source` sub-object of a NewsAPI article: `id` may be `None`
(modelled as `none`), `name` is a string. -/
structure Source where
  id : Option String
  name : String
deriving DecidableEq, Repr

/-- A NewsAPI article as consumed by `news.py`: the fields the code reads.
`description` is optional (absent or `None` in Python). -/
structure Story where
  source : Source
  title : String
  publishedAt : String
  url : String
  description : Option String
deriving DecidableEq, Repr

/-- Grouping structure produced by `stories_by_source`: a Python
`defaultdict(list)` whose iteration order is key-insertion order, modelled
as an association list in key-insertion order. -/
abbrev Groups := List (Option String × List Story)

/-- One step of the loop body of `stories_by_source`:
`by_source[source].append(story)` on a `defaultdict(list)` — append to the
key's list if the key is present, otherwise create the key (at the end,
preserving insertion order) with the one-element list. -/
def addStory (m : Groups) (key : Option String) (s : Story) : Groups :=
  if key ∈ m.map Prod.fst then
    m.map (fun p => if p.1 = key then (p.1, p.2 ++ [s]) else p)
  else
    m ++ [(key, [s])]

/-- Function `stories_by_source(stories)` from `news.py`: iterate the stories in
order and file each one under `story["source"]["id"]` (the raw `id` value,
which may be `None`; the code does not fall back to `source["name"]`
here). -/
def stories_by_source (stories : List Story) : Groups :=
  stories.foldl (fun m story => addStory m story.source.id story) []

/-- The Source Identifier resolution performed inside `write_csv`:
`source_id = story["source"]["id"]; if not source_id or len(source_id) == 0:
source_id = story["source"]["name"]`.  Falls back to the name exactly when
the id is `None` or the empty string. -/
def resolve_source_id (src : Source) : String :=
  match src.id with
  | none => src.name
  | some s => if s = "" then src.name else s

/-- The first-occurrence key order of a list: each value listed once, at the
position of its first occurrence.  Used to state what key-insertion order a
`defaultdict` built by a left-to-right loop ends up with. -/
def firstOccurrences : List (Option String) → List (Option String)
  | [] => []
  | a :: rest => a :: (firstOccurrences rest).filter (fun b => b ≠ a)

theorem mem_firstOccurrences (a : Option String) :
    ∀ l : List (Option String), a ∈ firstOccurrences l ↔ a ∈ l := by
  intro l
  induction l with
  | nil => simp [firstOccurrences]
  | cons x rest ih =>
    simp only [firstOccurrences, List.mem_cons, List.mem_filter]
    constructor
    · rintro (rfl | ⟨hmem, _⟩)
      · exact Or.inl rfl
      · exact Or.inr (ih.mp hmem)
    · rintro (rfl | hmem)
      · exact Or.inl rfl
      · by_cases hax : a = x
        · exact Or.inl hax
        · exact Or.inr ⟨ih.mpr hmem, by simpa using hax⟩

theorem nodup_firstOccurrences :
    ∀ l : List (Option String), (firstOccurrences l).Nodup := by
  intro l
  induction l with
  | nil => simp [firstOccurrences]
  | cons x rest ih =>
    simp only [firstOccurrences, List.nodup_cons]
    refine ⟨?_, List.Nodup.filter _ ih⟩
    intro hmem
    have := (List.mem_filter.mp hmem).2
    simp at this

theorem firstOccurrences_append_singleton (l : List (Option String))
    (a : Option String) :
    firstOccurrences (l ++ [a]) =
      if a ∈ l then firstOccurrences l else firstOccurrences l ++ [a] := by
  induction l with
  | nil => simp [firstOccurrences]
  | cons x rest ih =>
    by_cases hmem : a ∈ rest
    · have h1 : a ∈ x :: rest := List.mem_cons_of_mem _ hmem
      simp only [List.cons_append, firstOccurrences, List.append_eq, ih,
        if_pos hmem, if_pos h1]
    · by_cases hax : a = x
      · subst hax
        have h1 : a ∈ a :: rest := List.mem_cons_self _ _
        simp only [List.cons_append, firstOccurrences, List.append_eq, ih,
          if_neg hmem, if_pos h1, List.filter_append]
        simp
      · have h1 : a ∉ x :: rest := by simp [hax, hmem]
        simp only [List.cons_append, firstOccurrences, List.append_eq, ih,
          if_neg hmem, if_neg h1, List.filter_append]
        simp [hax]

theorem stories_by_source_append_singleton (l : List Story) (s : Story) :
    stories_by_source (l ++ [s]) =
      addStory (stories_by_source l) s.source.id s := by
  simp [stories_by_source, List.foldl_append]

/-- Updating the entry of an absent key changes nothing. -/
theorem addStory_map_id (m : Groups) (key : Option String) (s : Story)
    (h : key ∉ m.map Prod.fst) :
    m.map (fun p => if p.1 = key then (p.1, p.2 ++ [s]) else p) = m := by
  induction m with
  | nil => rfl
  | cons p rest ih =>
    simp only [List.map_cons, List.mem_cons, not_or] at h ⊢
    have hp : p.1 ≠ key := fun hh => h.1 hh.symm
    rw [if_neg hp, ih h.2]

/-- Appending a story to the (unique) group of a present key permutes the
concatenation of all groups to the old concatenation plus the story. -/
theorem flatten_addStory_update (m : Groups) (key : Option String) (s : Story)
    (hmem : key ∈ m.map Prod.fst) (hnd : (m.map Prod.fst).Nodup) :
    ((m.map (fun p => if p.1 = key then (p.1, p.2 ++ [s]) else p)).map
        Prod.snd).flatten.Perm
      ((m.map Prod.snd).flatten ++ [s]) := by
  induction m with
  | nil => simp at hmem
  | cons p rest ih =>
    simp only [List.map_cons, List.nodup_cons, List.mem_cons] at hmem hnd
    simp only [List.map_cons]
    by_cases hp : p.1 = key
    · subst hp
      rw [if_pos rfl, addStory_map_id rest p.1 s hnd.1]
      simp only [List.map_cons, List.flatten_cons]
      rw [List.append_assoc, List.append_assoc]
      exact List.Perm.append_left p.2 List.perm_append_comm
    · have hmem' : key ∈ rest.map Prod.fst := by
        rcases hmem with h | h
        · exact absurd h.symm hp
        · exact h
      rw [if_neg hp]
      simp only [List.map_cons, List.flatten_cons]
      rw [List.append_assoc]
      exact List.Perm.append_left p.2 (ih hmem' hnd.2)

/-- The loop invariant of `stories_by_source`: after processing the prefix
`l`, the accumulated `defaultdict` has keys in first-occurrence order of the
raw source ids, each group is the in-order sublist of stories carrying that
id, and the concatenation of the groups is a permutation of `l`. -/
def GroupInv (l : List Story) (m : Groups) : Prop :=
  m.map Prod.fst = firstOccurrences (l.map (fun s => s.source.id)) ∧
  (∀ p ∈ m, p.2 = l.filter (fun s => decide (s.source.id = p.1))) ∧
  ((m.map Prod.snd).flatten).Perm l

theorem groupInv_addStory (l : List Story) (s : Story) (m : Groups)
    (h : GroupInv l m) :
    GroupInv (l ++ [s]) (addStory m s.source.id s) := by
  obtain ⟨hkeys, hgrp, hperm⟩ := h
  have hnd : (m.map Prod.fst).Nodup := hkeys ▸ nodup_firstOccurrences _
  have hfilter_app : ∀ k : Option String,
      (l ++ [s]).filter (fun t => decide (t.source.id = k)) =
        l.filter (fun t => decide (t.source.id = k)) ++
          (if s.source.id = k then [s] else []) := by
    intro k
    rw [List.filter_append]
    by_cases hk : s.source.id = k <;> simp [hk]
  by_cases hmem : s.source.id ∈ m.map Prod.fst
  · refine ⟨?_, ?_, ?_⟩
    · rw [addStory, if_pos hmem]
      have hfst : (m.map (fun p => if p.1 = s.source.id then (p.1, p.2 ++ [s])
          else p)).map Prod.fst = m.map Prod.fst := by
        rw [List.map_map]
        apply List.map_congr_left
        intro p _
        by_cases hp : p.1 = s.source.id <;> simp [hp]
      have hin : s.source.id ∈ l.map (fun t => t.source.id) := by
        rw [← mem_firstOccurrences, ← hkeys]
        exact hmem
      rw [hfst, hkeys, List.map_append, List.map_singleton,
        firstOccurrences_append_singleton, if_pos hin]
    · rw [addStory, if_pos hmem]
      intro q hq
      rw [List.mem_map] at hq
      obtain ⟨p, hp, hq⟩ := hq
      by_cases hpk : p.1 = s.source.id
      · rw [if_pos hpk] at hq
        subst hq
        show p.2 ++ [s] =
          (l ++ [s]).filter (fun t => decide (t.source.id = p.1))
        rw [hfilter_app, if_pos hpk.symm, ← hgrp p hp]
      · rw [if_neg hpk] at hq
        subst hq
        show p.2 = (l ++ [s]).filter (fun t => decide (t.source.id = p.1))
        rw [hfilter_app, if_neg (fun h => hpk h.symm), List.append_nil]
        exact hgrp p hp
    · rw [addStory, if_pos hmem]
      exact (flatten_addStory_update m s.source.id s hmem hnd).trans
        (hperm.append_right [s])
  · refine ⟨?_, ?_, ?_⟩
    · rw [addStory, if_neg hmem]
      have hnotin : s.source.id ∉ l.map (fun t => t.source.id) := by
        rw [← mem_firstOccurrences, ← hkeys]
        exact hmem
      rw [List.map_append, hkeys, List.map_append]
      simp only [List.map_singleton]
      rw [firstOccurrences_append_singleton, if_neg hnotin]
    · rw [addStory, if_neg hmem]
      intro q hq
      rcases List.mem_append.mp hq with hq | hq
      · have hqk : q.1 ∈ m.map Prod.fst := List.mem_map_of_mem Prod.fst hq
        have hqs : s.source.id ≠ q.1 := fun h => hmem (h ▸ hqk)
        rw [hfilter_app, if_neg hqs, List.append_nil]
        exact hgrp q hq
      · simp only [List.mem_singleton] at hq
        subst hq
        have hempty : l.filter (fun t => decide (t.source.id = s.source.id))
            = [] := by
          rw [List.filter_eq_nil_iff]
          intro t ht hdec
          apply hmem
          rw [hkeys, mem_firstOccurrences]
          have hts : t.source.id = s.source.id := of_decide_eq_true hdec
          rw [← hts]
          exact List.mem_map_of_mem (fun u => u.source.id) ht
        show [s] = (l ++ [s]).filter (fun t =>
          decide (t.source.id = s.source.id))
        rw [hfilter_app, if_pos rfl, hempty]
        rfl
    · rw [addStory, if_neg hmem]
      simp only [List.map_append, List.flatten_append, List.map_cons,
        List.map_nil, List.flatten_cons, List.flatten_nil, List.append_nil]
      exact hperm.append_right [s]

theorem groupInv_foldl (l : List Story) :
    ∀ (l0 : List Story) (m : Groups), GroupInv l0 m →
      GroupInv (l0 ++ l)
        (l.foldl (fun m story => addStory m story.source.id story) m) := by
  induction l with
  | nil =>
    intro l0 m h
    simpa using h
  | cons s rest ih =>
    intro l0 m h
    have step := groupInv_addStory l0 s m h
    have := ih (l0 ++ [s]) _ step
    simpa [List.append_assoc] using this

theorem stories_by_source_inv (stories : List Story) :
    GroupInv stories (stories_by_source stories) := by
  have := groupInv_foldl stories [] [] ⟨rfl, by simp, by simp⟩
  simpa [stories_by_source] using this

/-- A story whose source has a `None` id and the name "X". -/
def storyNoId : Story :=
  ⟨⟨none, "X"⟩, "t1", "d1", "u1", none⟩

/-- A story whose source id "X" coincides with `storyNoId`'s source name. -/
def storyIdX : Story :=
  ⟨⟨some "X", "Y"⟩, "t2", "d2", "u2", none⟩

/-- The step of the grouping described by the spec's words, keyed by the
resolved Source Identifier instead of the raw id. -/
def addStoryByResolvedId (m : List (String × List Story)) (key : String)
    (s : Story) : List (String × List Story) :=
  if key ∈ m.map Prod.fst then
    m.map (fun p => if p.1 = key then (p.1, p.2 ++ [s]) else p)
  else
    m ++ [(key, [s])]

/-- Modelled from the spec's words (for contrast with the code's
`stories_by_source` only): group articles keying each one by its resolved
Source Identifier, `source.id` when non-empty and `source.name`
otherwise. -/
def group_by_source_spec (stories : List Story) :
    List (String × List Story) :=
  stories.foldl
    (fun m story => addStoryByResolvedId m (resolve_source_id story.source)
      story) []

/-- C1 (counterexample): `stories_by_source` does NOT key articles by the
resolved Source Identifier.  `storyNoId` (id `None`, name "X") and
`storyIdX` (id "X") resolve to the same Source Identifier "X", yet the code
files them under the two distinct keys `None` and "X"; the grouping the
claim describes would put both under the single key "X". -/
theorem stories_by_source_not_keyed_by_resolved_id :
    resolve_source_id storyNoId.source = resolve_source_id storyIdX.source ∧
    stories_by_source [storyNoId, storyIdX] =
      [(none, [storyNoId]), (some "X", [storyIdX])] ∧
    group_by_source_spec [storyNoId, storyIdX] =
      [("X", [storyNoId, storyIdX])] := by
  refine ⟨rfl, ?_, ?_⟩ <;> decide

/-- C1 (amended): `stories_by_source` keys each article by its raw
`source.id` value (possibly `None`, with no fallback to `source.name`),
creating a key at its first occurrence and appending articles to that key's
list in arrival order (each group is the in-order sublist of input stories
carrying that exact id). -/
theorem stories_by_source_keys_raw_id (stories : List Story) :
    (stories_by_source stories).map Prod.fst =
      firstOccurrences (stories.map (fun s => s.source.id)) ∧
    ∀ p ∈ stories_by_source stories,
      p.2 = stories.filter (fun s => decide (s.source.id = p.1)) :=
  ⟨(stories_by_source_inv stories).1, (stories_by_source_inv stories).2.1⟩

/-- Witness for the amended C1 at a concrete input. -/
theorem stories_by_source_keys_raw_id_witness :
    (stories_by_source [storyIdX]).map Prod.fst =
      firstOccurrences ([storyIdX].map (fun s => s.source.id)) ∧
    (some "X", [storyIdX]).2 =
      [storyIdX].filter (fun s => decide (s.source.id = (some "X", [storyIdX]).1)) :=
  ⟨(stories_by_source_keys_raw_id [storyIdX]).1,
    (stories_by_source_keys_raw_id [storyIdX]).2 (some "X", [storyIdX])
      (by decide)⟩

/-- C10: `stories_by_source` partitions its input — group keys are
pairwise distinct, each group is exactly the in-order sublist of input
stories carrying its key (so every story lands in exactly one group, the
one under its key), the group sizes sum to the input length, and the
concatenation of the groups in key-insertion order is a permutation of the
input (every input story exactly once). -/
theorem stories_by_source_partitions (stories : List Story) :
    ((stories_by_source stories).map Prod.fst).Nodup ∧
    (∀ p ∈ stories_by_source stories,
      p.2 = stories.filter (fun s => decide (s.source.id = p.1))) ∧
    ((stories_by_source stories).map (fun p => p.2.length)).sum =
      stories.length ∧
    (((stories_by_source stories).map Prod.snd).flatten).Perm stories := by
  obtain ⟨hkeys, hgrp, hperm⟩ := stories_by_source_inv stories
  refine ⟨hkeys ▸ nodup_firstOccurrences _, hgrp, ?_, hperm⟩
  have hlen : ((stories_by_source stories).map Prod.snd).flatten.length =
      stories.length := hperm.length_eq
  rw [← hlen, List.length_flatten, List.map_map]
  rfl

/-- Witness for C10 at a concrete input. -/
theorem stories_by_source_partitions_witness :
    ((stories_by_source [storyNoId]).map Prod.fst).Nodup ∧
    ((none : Option String), [storyNoId]).2 =
      [storyNoId].filter
        (fun s => decide (s.source.id = ((none : Option String), [storyNoId]).1)) ∧
    ((stories_by_source [storyNoId]).map (fun p => p.2.length)).sum = 1 ∧
    (((stories_by_source [storyNoId]).map Prod.snd).flatten).Perm
      [storyNoId] :=
  ⟨(stories_by_source_partitions [storyNoId]).1,
    (stories_by_source_partitions [storyNoId]).2.1
      ((none : Option String), [storyNoId]) (by decide),
    (stories_by_source_partitions [storyNoId]).2.2.1,
    (stories_by_source_partitions [storyNoId]).2.2.2⟩

/-! ## Pagination (`NewsApiClient._paged_search`)

The remote search call (`get_top_headlines` / `get_everything`) is modelled
as a function from a page number to either a page of articles or a raised
`NewsAPIException` carrying its error code string.  Articles are opaque to
the pagination logic, hence a type parameter.  The `while True` loop runs
on fuel; `diverged` marks fuel exhaustion (a model artifact that never
arises in the terminating scenarios the theorems are about). -/

/-- The outcome of one remote page request: a page of articles, or a
`NewsAPIException` with the given error code. -/
inductive PageResp (α : Type) where
  | page (articles : List α)
  | exn (code : String)
deriving DecidableEq, Repr

/-- The observable outcome of running the pagination loop to completion:
the generator finishes normally having yielded `articles` in order
(`done`), re-raises a `NewsAPIException` with the given code (`failed`), or
the loop is still running when fuel runs out (`diverged`). -/
inductive SearchOutcome (α : Type) where
  | done (articles : List α)
  | failed (code : String)
  | diverged
deriving DecidableEq, Repr

/-- One externally visible event of the generator: a page request sent to
the remote API, or one article yielded to the consumer. -/
inductive Event (α : Type) where
  | request (page : Nat)
  | yieldArticle (a : α)
deriving DecidableEq, Repr

/-- The body of `_paged_search` from `news.py`, with its event trace made
explicit.  Faithful to the source: the `while True` loop requests page
`current_page`; on a `maximumResultsReached` exception it logs a warning
and breaks; on any other `NewsAPIException` it re-raises; on a non-empty
page it extends `articles` and advances the page; on an empty page it
breaks.  Only after the loop exits normally does `for article in articles:
yield article` run, so all yields come after all requests. -/
def pagedTraceLoop {α : Type} (search : Nat → PageResp α) :
    Nat → Nat → List α → List (Event α) → List (Event α) × SearchOutcome α
  | 0, _, _, evs => (evs, .diverged)
  | fuel + 1, current_page, articles, evs =>
    let evs' := evs ++ [Event.request current_page]
    match search current_page with
    | .exn code =>
      if code = "maximumResultsReached" then
        (evs' ++ articles.map Event.yieldArticle, .done articles)
      else
        (evs', .failed code)
    | .page arts =>
      if arts.length ≠ 0 then
        pagedTraceLoop search fuel (current_page + 1) (articles ++ arts) evs'
      else
        (evs' ++ articles.map Event.yieldArticle, .done articles)

/-- Method `_paged_search` run from page 1 with an empty article buffer: returns
the full event trace of the generator together with its outcome. -/
def paged_search {α : Type} (search : Nat → PageResp α) (fuel : Nat) :
    List (Event α) × SearchOutcome α :=
  pagedTraceLoop search fuel 1 [] []

/-- Every trace of the pagination loop is a block of consecutive page
requests followed (on normal termination) by the yields of all gathered
articles — no yield ever happens between two requests. -/
theorem pagedTraceLoop_trace {α : Type} (search : Nat → PageResp α) :
    ∀ (fuel current : Nat) (articles : List α) (evs : List (Event α)),
      ∃ k, (pagedTraceLoop search fuel current articles evs).1 =
        evs ++ (List.range' current k).map Event.request ++
          (match (pagedTraceLoop search fuel current articles evs).2 with
            | .done arts => arts.map Event.yieldArticle
            | _ => []) := by
  intro fuel
  induction fuel with
  | zero =>
    intro current articles evs
    exact ⟨0, by simp [pagedTraceLoop]⟩
  | succ fuel ih =>
    intro current articles evs
    rcases hs : search current with arts | code
    · by_cases hlen : arts.length ≠ 0
      · obtain ⟨k, hk⟩ := ih (current + 1) (articles ++ arts)
          (evs ++ [Event.request current])
        refine ⟨k + 1, ?_⟩
        have hstep : pagedTraceLoop search (fuel + 1) current articles evs =
            pagedTraceLoop search fuel (current + 1) (articles ++ arts)
              (evs ++ [Event.request current]) := by
          simp only [pagedTraceLoop, hs, if_pos hlen]
        rw [hstep, hk, List.range'_succ current k 1]
        simp [List.append_assoc]
      · refine ⟨1, ?_⟩
        simp only [pagedTraceLoop, hs, if_neg hlen]
        simp [List.range']
    · by_cases hcode : code = "maximumResultsReached"
      · refine ⟨1, ?_⟩
        simp only [pagedTraceLoop, hs, if_pos hcode]
        simp [List.range']
      · refine ⟨1, ?_⟩
        simp only [pagedTraceLoop, hs, if_neg hcode]
        simp [List.range']

/-- C3 (amended): the paged-search generator is lazy only as a whole.  On
first consumption it performs all page requests — consecutive page numbers
starting at 1, one request at a time — until the loop stops, and only then
yields the gathered articles in order; so the trace is all the requests
followed by all the yields, and page N+1 is requested before any of page
N's articles is yielded or consumed. -/
theorem paged_search_requests_before_yields {α : Type}
    (search : Nat → PageResp α) (fuel : Nat) :
    ∃ k, (paged_search search fuel).1 =
      (List.range' 1 k).map Event.request ++
        (match (paged_search search fuel).2 with
          | .done arts => arts.map Event.yieldArticle
          | _ => []) := by
  obtain ⟨k, hk⟩ := pagedTraceLoop_trace search fuel 1 [] []
  exact ⟨k, by simpa [paged_search] using hk⟩

/-- A remote search function returning one-article pages 1 and 2 and an
empty page afterwards. -/
def twoPageSearch : Nat → PageResp Nat :=
  fun n => if n = 1 then .page [10] else if n = 2 then .page [20]
    else .page []

/-- C3 (counterexample): the generator does NOT yield an article as soon as
its page is fetched, and page N+1 IS requested before page N's results are
consumed.  Over `twoPageSearch` the trace is request 1, request 2,
request 3, then the yields: the request of page 2 (index 1) precedes the
first yield of page 1's article (index 3). -/
theorem paged_search_eager_counterexample :
    (paged_search twoPageSearch 3).1 =
      [Event.request 1, Event.request 2, Event.request 3,
        Event.yieldArticle 10, Event.yieldArticle 20] ∧
    (paged_search twoPageSearch 3).1.indexOf (Event.request 2) <
      (paged_search twoPageSearch 3).1.indexOf (Event.yieldArticle 10) := by
  constructor <;> decide

/-- C4: when a page request raises the remote's `maximumResultsReached`
condition, the pagination loop stops without raising and the sequence
terminates normally, yielding exactly the articles gathered from the
earlier pages; when the very first call raises it, the sequence yields zero
articles.  (The warning log is outside the model.) -/
theorem paged_search_max_results {α : Type} (search : Nat → PageResp α)
    (fuel current_page : Nat) (articles : List α) (evs : List (Event α))
    (h : search current_page = .exn "maximumResultsReached") :
    pagedTraceLoop search (fuel + 1) current_page articles evs =
      (evs ++ [Event.request current_page] ++
        articles.map Event.yieldArticle, SearchOutcome.done articles) ∧
    (search 1 = PageResp.exn "maximumResultsReached" →
      paged_search search (fuel + 1) =
        ([Event.request 1], SearchOutcome.done [])) := by
  constructor
  · simp [pagedTraceLoop, h]
  · intro h1
    simp [paged_search, pagedTraceLoop, h1]

/-- Witness for C4: the first page request raising
`maximumResultsReached` terminates the sequence with zero articles. -/
theorem paged_search_max_results_witness :
    paged_search (fun _ => PageResp.exn "maximumResultsReached" :
        Nat → PageResp Nat) 1 =
      ([Event.request 1], SearchOutcome.done []) :=
  (paged_search_max_results (fun _ => PageResp.exn "maximumResultsReached")
    0 1 [] [] rfl).2 rfl

/-- C5: when a page request raises a remote API error other than
`maximumResultsReached`, the pagination loop re-raises it unchanged (same
code) to the consumer, yielding no article from that point; when the first
call raises, the error surfaces at the sequence's first consumption. -/
theorem paged_search_propagates_other_errors {α : Type}
    (search : Nat → PageResp α) (fuel current_page : Nat)
    (articles : List α) (evs : List (Event α)) (code : String)
    (hcode : code ≠ "maximumResultsReached")
    (h : search current_page = .exn code) :
    pagedTraceLoop search (fuel + 1) current_page articles evs =
      (evs ++ [Event.request current_page], SearchOutcome.failed code) ∧
    (search 1 = PageResp.exn code →
      paged_search search (fuel + 1) =
        ([Event.request 1], SearchOutcome.failed code)) := by
  constructor
  · simp [pagedTraceLoop, h, hcode]
  · intro h1
    simp [paged_search, pagedTraceLoop, h1, hcode]

/-- Witness for C5: a `dummycode` error on the first call propagates to the
first consumption of the sequence. -/
theorem paged_search_propagates_other_errors_witness :
    paged_search (fun _ => PageResp.exn "dummycode" : Nat → PageResp Nat) 1 =
      ([Event.request 1], SearchOutcome.failed "dummycode") :=
  (paged_search_propagates_other_errors
    (fun _ => PageResp.exn "dummycode") 0 1 [] [] "dummycode"
    (by decide) rfl).2 rfl

/-- C7: a remote search function returning one non-empty page and then an
empty page makes the paged-search sequence yield exactly that page's
articles, in order, and terminate normally. -/
theorem paged_search_one_page {α : Type} (search : Nat → PageResp α)
    (arts : List α) (fuel : Nat) (hne : arts ≠ [])
    (h1 : search 1 = .page arts) (h2 : search 2 = .page []) :
    paged_search search (fuel + 2) =
      ([Event.request 1, Event.request 2] ++ arts.map Event.yieldArticle,
        SearchOutcome.done arts) := by
  have hlen : arts.length ≠ 0 := fun h => hne (List.length_eq_zero.mp h)
  simp [paged_search, pagedTraceLoop, h1, h2, hlen]

/-- Witness for C7: one page containing the single article 10, then an
empty page. -/
theorem paged_search_one_page_witness :
    paged_search (fun n => if n = 1 then PageResp.page [10]
        else PageResp.page [] : Nat → PageResp Nat) 2 =
      ([Event.request 1, Event.request 2, Event.yieldArticle 10],
        SearchOutcome.done [10]) :=
  paged_search_one_page
    (fun n => if n = 1 then PageResp.page [10] else PageResp.page [])
    [10] 0 (by decide) rfl rfl

/-! ## Readability scoring and CSV serialization -/

/-- Function `story_grade(story)` from `news.py`.  The external
`readability.getmeasures(...)["readability grades"]["Kincaid"]` call is
modelled by the parameter `kincaid`, with `none` standing for the
`ValueError` the library raises on unscoreable text (caught by the code).
`grade` starts at `0.0`; is replaced by the Kincaid score only when the
description is present, truthy (non-`None`, non-empty) and scoreable. -/
def story_grade (kincaid : String → Option ℚ) (story : Story) : ℚ :=
  match story.description with
  | none => 0
  | some text =>
    if text = "" then 0
    else
      match kincaid text with
      | none => 0
      | some grade => grade

/-- Python's `"{0:.2f}".format(g)`: fixed-point rendering with exactly two
decimal places, rounding to the nearest hundredth.  The rounded numerator
`⌊q * 100 + 1/2⌋` is computed as `(200 * q.num + q.den).fdiv (2 * q.den)`
(floor division; `q.den > 0`). -/
def formatGrade (q : ℚ) : String :=
  let n : Int := (200 * q.num + q.den).fdiv (2 * q.den)
  let sign := if n < 0 then "-" else ""
  let m := n.natAbs
  sign ++ toString (m / 100) ++ "." ++
    (if m % 100 < 10 then "0" else "") ++ toString (m % 100)

/-- A field needs quoting under the default dialect of Python's `csv`
module (QUOTE_MINIMAL) iff it contains the delimiter, the quote character,
or a line-break character. -/
def needsQuoting (s : String) : Bool :=
  s.toList.any (fun c => c = ',' || c = '"' || c = '\n' || c = '\r')

/-- Quote a CSV field: wrap in double quotes, doubling embedded quotes. -/
def quoteField (s : String) : String :=
  "\"" ++ String.join (s.toList.map (fun c =>
    if c = '"' then "\"\"" else String.singleton c)) ++ "\""

/-- Minimal quoting: a field is emitted verbatim unless it needs quoting. -/
def csvField (s : String) : String :=
  if needsQuoting s then quoteField s else s

/-- One `writer.writerow(...)` of Python's `csv` module under the default
dialect: comma-separated, minimally quoted fields, CRLF-terminated. -/
def writerow (fields : List String) : String :=
  String.intercalate "," (fields.map csvField) ++ "\r\n"

/-- Function `write_csv(fh, stories)` from `news.py`: for each story, one row
`(source_id, title, publishedAt, url, grade)` where `source_id` is the
resolved Source Identifier and the grade is formatted to two decimals; no
header row.  The output is the full text written to the file handle. -/
def write_csv (kincaid : String → Option ℚ) : List Story → String
  | [] => ""
  | story :: rest =>
    writerow [resolve_source_id story.source, story.title,
      story.publishedAt, story.url,
      formatGrade (story_grade kincaid story)] ++ write_csv kincaid rest

/-- C8: on a story whose description is absent or empty, or whose
description the readability computation cannot score (the `ValueError`
case, modelled by `kincaid` returning `none`), `story_grade` returns `0.0`
instead of failing. -/
theorem story_grade_degenerate (kincaid : String → Option ℚ) (story : Story)
    (h : story.description = none ∨ ∃ t, story.description = some t ∧
      (t = "" ∨ kincaid t = none)) :
    story_grade kincaid story = 0 := by
  rcases h with h | ⟨t, ht, h⟩
  · simp [story_grade, h]
  · by_cases ht0 : t = ""
    · simp [story_grade, ht, ht0]
    · rcases h with rfl | h
      · simp [story_grade, ht]
      · simp [story_grade, ht, ht0, h]

/-- Witness for C8: a story without a description grades to `0.0`, for any
behaviour of the readability library. -/
theorem story_grade_degenerate_witness :
    story_grade (fun _ => none) storyNoId = 0 :=
  story_grade_degenerate (fun _ => none) storyNoId (Or.inl rfl)

/-- The article of the spec's `write_csv` example: id "sourceid", title
"headlines", publishedAt "now", url "url", no description. -/
def storyWithId : Story :=
  ⟨⟨some "sourceid", "sourcename"⟩, "headlines", "now", "url", none⟩

/-- The same article with a `None` id, exercising the name fallback. -/
def storyWithoutId : Story :=
  ⟨⟨none, "sourcename"⟩, "headlines", "now", "url", none⟩

/-- C6: `write_csv` emits exactly one CSV row per article and nothing else
(no header row), the row's `source_id` falls back from `source.id` to
`source.name` exactly when the id is `None` or the empty string, the grade
is formatted to two decimal places, and on the two example articles the
emitted lines (CRLF-terminated by the csv module's default dialect) are
`sourceid,headlines,now,url,0.00` and `sourcename,headlines,now,url,0.00`. -/
theorem write_csv_row_format :
    (∀ kincaid : String → Option ℚ, write_csv kincaid [] = "") ∧
    (∀ (kincaid : String → Option ℚ) (story : Story) (rest : List Story),
      write_csv kincaid (story :: rest) =
        writerow [resolve_source_id story.source, story.title,
          story.publishedAt, story.url,
          formatGrade (story_grade kincaid story)] ++
          write_csv kincaid rest) ∧
    (∀ src : Source, src.id = none ∨ src.id = some "" →
      resolve_source_id src = src.name) ∧
    (∀ (src : Source) (t : String), src.id = some t → t ≠ "" →
      resolve_source_id src = t) ∧
    write_csv (fun _ => none) [storyWithId] =
      "sourceid,headlines,now,url,0.00\r\n" ∧
    write_csv (fun _ => none) [storyWithoutId] =
      "sourcename,headlines,now,url,0.00\r\n" := by
  refine ⟨fun _ => rfl, fun _ _ _ => rfl, ?_, ?_, ?_, ?_⟩
  · rintro src (h | h) <;> simp [resolve_source_id, h]
  · intro src t h ht
    simp [resolve_source_id, h, ht]
  · decide
  · decide

/-- Witness for C6's fallback clauses at concrete sources. -/
theorem write_csv_row_format_witness :
    resolve_source_id ⟨none, "sourcename"⟩ = "sourcename" ∧
    resolve_source_id ⟨some "sourceid", "sourcename"⟩ = "sourceid" :=
  ⟨write_csv_row_format.2.2.1 ⟨none, "sourcename"⟩ (Or.inl rfl),
    write_csv_row_format.2.2.2.1 ⟨some "sourceid", "sourcename"⟩ "sourceid"
      rfl (by decide)⟩

/-! ## Job functions (`generate_headlines`, `search_news`)

The S3 upload (`upload_news`, a thin `boto3.upload_file` wrapper) is
modelled by an `upload` parameter returning `Except`: `.error` stands for a
raised exception.  The NewsAPI fetches are parameters as well (`stories`
resp. `searchResults`); `context["ds"]` is the run-date string `ds`.  A run
is observed through the file writes and upload attempts it performs, in
order, plus the exception that escaped, if any. -/

/-- Whether a path begins with the separator (Python
`b.startswith('/')`). -/
def startsWithSlash (s : String) : Bool :=
  s.toList.head? = some '/'

/-- Whether a path ends with the separator (Python `a.endswith('/')`). -/
def endsWithSlash (s : String) : Bool :=
  s.toList.getLast? = some '/'

/-- Python `os.path.join(a, b)` (posix, two arguments): an absolute second part
discards the first; otherwise the parts are joined with exactly one
separator. -/
def pathJoin (a b : String) : String :=
  if startsWithSlash b then b
  else if a = "" || endsWithSlash a then a ++ b
  else a ++ "/" ++ b

/-- Python string interpolation `f"{source}"` of a grouping key:
`None` renders as the string "None". -/
def pyStr : Option String → String
  | none => "None"
  | some s => s

/-- The observable effects of one job run: the files written (path and
content), the uploads attempted (path, bucket, key), and the exception that
escaped the job function, if any. -/
structure RunTrace where
  writes : List (String × String)
  uploads : List (String × String × String)
  error : Option String
deriving DecidableEq, Repr

/-- The per-source loop of `generate_headlines`: for each source, in key
order, write `<tmpdir>/<source>_<ds>_top_headlines.csv` with the group's
CSV and upload it to the bucket under key
`<source>/<ds>_top_headlines.csv`.  The loop body has no try/except, so a
raised upload exception escapes at once, ending the run. -/
def processSources (kincaid : String → Option ℚ)
    (upload : String → String → String → Except String Unit)
    (tmpdir bucket ds : String) : Groups → RunTrace
  | [] => ⟨[], [], none⟩
  | (source, group) :: rest =>
    let filename := ds ++ "_top_headlines.csv"
    let filepath := pathJoin tmpdir (pyStr source ++ "_" ++ filename)
    let key := pyStr source ++ "/" ++ filename
    let w := (filepath, write_csv kincaid group)
    match upload filepath bucket key with
    | .error e => ⟨[w], [(filepath, bucket, key)], some e⟩
    | .ok _ =>
      let t := processSources kincaid upload tmpdir bucket ds rest
      ⟨w :: t.writes, (filepath, bucket, key) :: t.uploads, t.error⟩

/-- Function `generate_headlines(tmpdir, bucket, apikey, **context)` from `news.py`,
given the stories the NewsAPI returned: group them by source and run the
per-source write/upload loop. -/
def generate_headlines (kincaid : String → Option ℚ)
    (upload : String → String → String → Except String Unit)
    (tmpdir bucket ds : String) (stories : List Story) : RunTrace :=
  processSources kincaid upload tmpdir bucket ds (stories_by_source stories)

/-- Function `search_news(tmpdir, bucket, terms, apikey, **context)` from `news.py`:
run one search per term, in order, extending one combined story list; write
`<tmpdir>/<ds>_combined_search.csv`; upload it under key
`<ds>_combined_search.csv`. -/
def search_news (kincaid : String → Option ℚ)
    (upload : String → String → String → Except String Unit)
    (tmpdir bucket ds : String) (searchResults : String → List Story)
    (terms : List String) : RunTrace :=
  let filename := ds ++ "_combined_search.csv"
  let filepath := pathJoin tmpdir filename
  let all_stories := terms.foldl (fun acc term => acc ++ searchResults term) []
  let w := (filepath, write_csv kincaid all_stories)
  match upload filepath bucket filename with
  | .error e => ⟨[w], [(filepath, bucket, filename)], some e⟩
  | .ok _ => ⟨[w], [(filepath, bucket, filename)], none⟩

/-- A story filed under source id "a". -/
def storyA : Story := ⟨⟨some "a", "A"⟩, "t", "p", "u", none⟩

/-- A story filed under source id "b". -/
def storyB : Story := ⟨⟨some "b", "B"⟩, "t2", "p2", "u2", none⟩

/-- An upload stub that raises exactly on source "a"'s key. -/
def failFirstUpload : String → String → String → Except String Unit :=
  fun _ _ key =>
    if key = "a/2021-01-01_top_headlines.csv" then .error "uploadfail"
    else .ok ()

/-- C2 (counterexample): when the upload of one source's CSV fails, the
later sources are NOT attempted.  With two sources "a" and "b" and an
upload that raises on "a"'s key, the run writes and attempts only "a"'s
file — no write and no upload for "b" ever happens — and the exception
escapes. -/
theorem generate_headlines_upload_failure_counterexample :
    generate_headlines (fun _ => none) failFirstUpload "/tmp" "bucket"
        "2021-01-01" [storyA, storyB] =
      ⟨[("/tmp/a_2021-01-01_top_headlines.csv", "a,t,p,u,0.00\r\n")],
        [("/tmp/a_2021-01-01_top_headlines.csv", "bucket",
          "a/2021-01-01_top_headlines.csv")],
        some "uploadfail"⟩ ∧
    (stories_by_source [storyA, storyB]).length = 2 := by
  constructor <;> decide

/-- C2 (amended): when the upload of one source's CSV file raises, the
exception escapes the per-source loop immediately: the run records only
that source's write and upload attempt, the remaining sources (whatever
they are) are not attempted, and the job run fails with that exception. -/
theorem generate_headlines_upload_failure_aborts
    (kincaid : String → Option ℚ)
    (upload : String → String → String → Except String Unit)
    (tmpdir bucket ds : String) (source : Option String)
    (group : List Story) (rest : Groups) (e : String)
    (h : upload (pathJoin tmpdir (pyStr source ++ "_" ++
        (ds ++ "_top_headlines.csv"))) bucket
        (pyStr source ++ "/" ++ (ds ++ "_top_headlines.csv")) = .error e) :
    processSources kincaid upload tmpdir bucket ds ((source, group) :: rest)
      = ⟨[(pathJoin tmpdir (pyStr source ++ "_" ++
            (ds ++ "_top_headlines.csv")), write_csv kincaid group)],
          [(pathJoin tmpdir (pyStr source ++ "_" ++
            (ds ++ "_top_headlines.csv")), bucket,
            pyStr source ++ "/" ++ (ds ++ "_top_headlines.csv"))],
          some e⟩ := by
  simp only [processSources, h]

/-- Witness for the amended C2: a failing upload on the first of two
sources produces exactly the one-source trace, for any tail. -/
theorem generate_headlines_upload_failure_aborts_witness :
    processSources (fun _ => none) (fun _ _ _ => Except.error "boom") "/tmp"
        "bucket" "2021-01-01" [(some "a", [storyA]), (some "b", [storyB])]
      = ⟨[(pathJoin "/tmp" (pyStr (some "a") ++ "_" ++
            ("2021-01-01" ++ "_top_headlines.csv")),
            write_csv (fun _ => none) [storyA])],
          [(pathJoin "/tmp" (pyStr (some "a") ++ "_" ++
            ("2021-01-01" ++ "_top_headlines.csv")), "bucket",
            pyStr (some "a") ++ "/" ++ ("2021-01-01" ++ "_top_headlines.csv"))],
          some "boom"⟩ :=
  generate_headlines_upload_failure_aborts (fun _ => none)
    (fun _ _ _ => Except.error "boom") "/tmp" "bucket" "2021-01-01"
    (some "a") [storyA] [(some "b", [storyB])] "boom" rfl

/-- When every upload succeeds, the per-source loop processes every group,
writing and uploading one file per source under the naming convention. -/
theorem processSources_all_ok (kincaid : String → Option ℚ)
    (upload : String → String → String → Except String Unit)
    (tmpdir bucket ds : String)
    (hok : ∀ fp b k, upload fp b k = .ok ()) :
    ∀ groups : Groups,
      processSources kincaid upload tmpdir bucket ds groups =
        ⟨groups.map (fun p =>
            (pathJoin tmpdir (pyStr p.1 ++ "_" ++ (ds ++ "_top_headlines.csv")),
              write_csv kincaid p.2)),
          groups.map (fun p =>
            (pathJoin tmpdir (pyStr p.1 ++ "_" ++ (ds ++ "_top_headlines.csv")),
              bucket, pyStr p.1 ++ "/" ++ (ds ++ "_top_headlines.csv"))),
          none⟩ := by
  intro groups
  induction groups with
  | nil => rfl
  | cons p rest ih =>
    obtain ⟨source, group⟩ := p
    simp only [processSources, hok, ih, List.map_cons]

/-- C9: the output naming convention.  `generate_headlines` writes each
source's CSV to `<tmpdir>/<source>_<ds>_top_headlines.csv` and uploads that
file under key `<source>/<ds>_top_headlines.csv` (one file per source when
uploads succeed); `search_news` writes the combined CSV to
`<tmpdir>/<ds>_combined_search.csv` and uploads it under key
`<ds>_combined_search.csv`, bit-exact. -/
theorem output_file_naming (kincaid : String → Option ℚ)
    (upload : String → String → String → Except String Unit)
    (tmpdir bucket ds : String) :
    (∀ stories : List Story, (∀ fp b k, upload fp b k = .ok ()) →
      generate_headlines kincaid upload tmpdir bucket ds stories =
        ⟨(stories_by_source stories).map (fun p =>
            (pathJoin tmpdir (pyStr p.1 ++ "_" ++ (ds ++ "_top_headlines.csv")),
              write_csv kincaid p.2)),
          (stories_by_source stories).map (fun p =>
            (pathJoin tmpdir (pyStr p.1 ++ "_" ++ (ds ++ "_top_headlines.csv")),
              bucket, pyStr p.1 ++ "/" ++ (ds ++ "_top_headlines.csv"))),
          none⟩) ∧
    (∀ (searchResults : String → List Story) (terms : List String),
      (search_news kincaid upload tmpdir bucket ds searchResults terms).writes
          = [(pathJoin tmpdir (ds ++ "_combined_search.csv"),
              write_csv kincaid
                (terms.foldl (fun acc term => acc ++ searchResults term) []))] ∧
        (search_news kincaid upload tmpdir bucket ds searchResults
            terms).uploads
          = [(pathJoin tmpdir (ds ++ "_combined_search.csv"), bucket,
              ds ++ "_combined_search.csv")]) := by
  constructor
  · intro stories hok
    exact processSources_all_ok kincaid upload tmpdir bucket ds hok _
  · intro searchResults terms
    simp only [search_news]
    rcases hu : upload (pathJoin tmpdir (ds ++ "_combined_search.csv"))
        bucket (ds ++ "_combined_search.csv") with e | u <;>
      simp [hu]

/-- Witness for C9 at a concrete run. -/
theorem output_file_naming_witness :
    generate_headlines (fun _ => none) (fun _ _ _ => Except.ok ()) "/tmp"
        "bucket" "2021-01-01" [storyA] =
      ⟨(stories_by_source [storyA]).map (fun p =>
          (pathJoin "/tmp" (pyStr p.1 ++ "_" ++
            ("2021-01-01" ++ "_top_headlines.csv")),
            write_csv (fun _ => none) p.2)),
        (stories_by_source [storyA]).map (fun p =>
          (pathJoin "/tmp" (pyStr p.1 ++ "_" ++
            ("2021-01-01" ++ "_top_headlines.csv")), "bucket",
            pyStr p.1 ++ "/" ++ ("2021-01-01" ++ "_top_headlines.csv"))),
        none⟩ :=
  (output_file_naming (fun _ => none) (fun _ _ _ => Except.ok ()) "/tmp"
    "bucket" "2021-01-01").1 [storyA] (fun _ _ _ => rfl)
end News
